import Mathlib

/-!
Verification of the room-naming, membership-registry and event-routing core of
`src/socket_server.py` (a Socket.IO chat relay with tenant isolation).

The Python code is shallowly embedded: room names are Lean `String`s built
exactly as the f-strings build them (`f"tenant_{tenant_id}"`,
`f"tenant_{tenant_id}_conversation_{conversation_id}"`), the module-level
`connected_clients` dictionary becomes an association list from socket id to a
`ClientInfo` record, and the socket.io room index (maintained by
`sio.enter_room` / `sio.leave_room` inside the library) becomes a list of
(sid, room) pairs.  Python integers are modelled as `Int`, optional
dictionary entries as `Option`, and Python truthiness tests (`if not x:`)
as explicit falsiness predicates.
-/

/-- Fuel-based most-significant-digit-first decimal rendering of a natural
number; `natStrAux n n` is the digit list of a positive `n`.  Structural in
the fuel so that the kernel can evaluate it on concrete inputs. -/
def natStrAux : Nat → Nat → List Char
  | 0, _ => []
  | fuel + 1, n =>
    if n = 0 then []
    else natStrAux fuel (n / 10) ++ [Nat.digitChar (n % 10)]

/-- Decimal digit string of a natural number, exactly as Python's `str`
prints a non-negative `int` (in particular `natStr 0 = "0"`). -/
def natStr (n : Nat) : List Char :=
  if n = 0 then ['0'] else natStrAux n n

/-- Decimal string of an integer, exactly as Python's `str` prints an `int`:
a `-` sign followed by the digits for negative values. -/
def intStr : Int → List Char
  | Int.ofNat n => natStr n
  | Int.negSucc n => '-' :: natStr (n + 1)

theorem natStrAux_eq_digits (fuel : Nat) :
    ∀ n, n ≤ fuel → natStrAux fuel n = ((Nat.digits 10 n).map Nat.digitChar).reverse := by
  induction fuel with
  | zero =>
    intro n hn
    interval_cases n
    simp [natStrAux]
  | succ f ih =>
    intro n hn
    by_cases h0 : n = 0
    · subst h0; simp [natStrAux]
    · have hlt : n / 10 < n := Nat.div_lt_self (Nat.pos_of_ne_zero h0) (by norm_num)
      have hdiv : n / 10 ≤ f := by omega
      rw [natStrAux, if_neg h0, ih _ hdiv,
        Nat.digits_def' (by norm_num : (1 : ℕ) < 10) (Nat.pos_of_ne_zero h0)]
      simp

theorem natStr_eq_digits {n : Nat} (h : n ≠ 0) :
    natStr n = ((Nat.digits 10 n).map Nat.digitChar).reverse := by
  simp [natStr, h, natStrAux_eq_digits n n le_rfl]

theorem digitChar_inj_lt10 : ∀ a < 10, ∀ b < 10, Nat.digitChar a = Nat.digitChar b → a = b := by
  decide

theorem digitChar_ne_underscore : ∀ a < 10, Nat.digitChar a ≠ '_' := by decide

theorem digitChar_ne_dash : ∀ a < 10, Nat.digitChar a ≠ '-' := by decide

theorem map_digitChar_inj :
    ∀ l1 l2 : List Nat, (∀ d ∈ l1, d < 10) → (∀ d ∈ l2, d < 10) →
      l1.map Nat.digitChar = l2.map Nat.digitChar → l1 = l2 := by
  intro l1
  induction l1 with
  | nil =>
    intro l2 _ _ h
    cases l2 with
    | nil => rfl
    | cons b t2 => simp at h
  | cons a t ih =>
    intro l2 h1 h2 h
    cases l2 with
    | nil => simp at h
    | cons b t2 =>
      simp only [List.map_cons, List.cons.injEq] at h
      have hab : a = b :=
        digitChar_inj_lt10 a (h1 a (by simp)) b (h2 b (by simp)) h.1
      have ht : t = t2 :=
        ih t2 (fun d hd => h1 d (by simp [hd])) (fun d hd => h2 d (by simp [hd])) h.2
      simp [hab, ht]

theorem natStr_ne_single_zero {n : Nat} (hn : n ≠ 0) : natStr n ≠ ['0'] := by
  intro h
  rw [natStr_eq_digits hn] at h
  have h2 : (Nat.digits 10 n).map Nat.digitChar = ['0'] := by
    have := congrArg List.reverse h
    simpa using this
  rcases hdig : Nat.digits 10 n with _ | ⟨d, rest⟩
  · rw [hdig] at h2; simp at h2
  · rw [hdig] at h2
    simp only [List.map_cons, List.cons.injEq, List.map_eq_nil_iff] at h2
    have hd10 : d < 10 :=
      Nat.digits_lt_base (by norm_num) (by rw [hdig]; exact List.mem_cons_self d rest)
    have hd0 : d = 0 := digitChar_inj_lt10 d hd10 0 (by norm_num) (by simpa using h2.1)
    have hof := Nat.ofDigits_digits 10 n
    rw [hdig, h2.2, hd0] at hof
    simp [Nat.ofDigits] at hof
    exact hn hof.symm

theorem natStr_inj {a b : Nat} (h : natStr a = natStr b) : a = b := by
  by_cases ha : a = 0 <;> by_cases hb : b = 0
  · simp [ha, hb]
  · subst ha
    exact absurd h.symm (by simpa [natStr] using natStr_ne_single_zero hb)
  · subst hb
    exact absurd h (by simpa [natStr] using natStr_ne_single_zero ha)
  · rw [natStr_eq_digits ha, natStr_eq_digits hb] at h
    have hmap := List.reverse_injective h
    have hdig := map_digitChar_inj _ _
      (fun d hd => Nat.digits_lt_base (by norm_num) hd)
      (fun d hd => Nat.digits_lt_base (by norm_num) hd) hmap
    have ha' := Nat.ofDigits_digits 10 a
    have hb' := Nat.ofDigits_digits 10 b
    rw [hdig] at ha'
    rw [ha'] at hb'
    exact hb'

theorem mem_natStr_isDigit {c : Char} {n : Nat} (h : c ∈ natStr n) :
    ∃ d, d < 10 ∧ c = Nat.digitChar d := by
  by_cases hn : n = 0
  · subst hn
    have : c = '0' := by simpa [natStr] using h
    exact ⟨0, by norm_num, by simp [this]; rfl⟩
  · rw [natStr_eq_digits hn] at h
    rw [List.mem_reverse] at h
    obtain ⟨d, hd, hc⟩ := List.mem_map.mp h
    exact ⟨d, Nat.digits_lt_base (by norm_num) hd, hc.symm⟩

theorem underscore_not_mem_natStr (n : Nat) : '_' ∉ natStr n := by
  intro h
  obtain ⟨d, hd10, hc⟩ := mem_natStr_isDigit h
  exact digitChar_ne_underscore d hd10 hc.symm

theorem dash_not_mem_natStr (n : Nat) : '-' ∉ natStr n := by
  intro h
  obtain ⟨d, hd10, hc⟩ := mem_natStr_isDigit h
  exact digitChar_ne_dash d hd10 hc.symm

theorem underscore_not_mem_intStr (i : Int) : '_' ∉ intStr i := by
  cases i with
  | ofNat n => exact underscore_not_mem_natStr n
  | negSucc n =>
    intro h
    rcases List.mem_cons.mp h with h | h
    · exact absurd h (by decide)
    · exact underscore_not_mem_natStr (n + 1) h

theorem intStr_inj {a b : Int} (h : intStr a = intStr b) : a = b := by
  cases a with
  | ofNat m =>
    cases b with
    | ofNat n => simpa using natStr_inj (by simpa [intStr] using h)
    | negSucc n =>
      exfalso
      apply dash_not_mem_natStr m
      rw [show intStr (Int.ofNat m) = natStr m from rfl] at h
      rw [h]
      exact List.mem_cons_self _ _
  | negSucc m =>
    cases b with
    | ofNat n =>
      exfalso
      apply dash_not_mem_natStr n
      rw [show intStr (Int.ofNat n) = natStr n from rfl] at h
      rw [← h]
      exact List.mem_cons_self _ _
    | negSucc n =>
      simp only [intStr, List.cons.injEq, true_and] at h
      have hmn : m = n := by have := natStr_inj h; omega
      simp [hmn]

/-- Room name of an entire tenant; embeds `get_tenant_room` of
`src/socket_server.py` (`f"tenant_{tenant_id}"`). -/
def get_tenant_room (tenant_id : Int) : String :=
  "tenant_" ++ (intStr tenant_id).asString

/-- Room name of a conversation inside a tenant scope; embeds
`get_conversation_room` of `src/socket_server.py`
(`f"tenant_{tenant_id}_conversation_{conversation_id}"`). -/
def get_conversation_room (tenant_id conversation_id : Int) : String :=
  "tenant_" ++ (intStr tenant_id).asString ++ "_conversation_" ++
    (intStr conversation_id).asString

theorem get_tenant_room_data (t : Int) :
    (get_tenant_room t).data = "tenant_".data ++ intStr t := by
  simp [get_tenant_room, List.asString]

theorem get_conversation_room_data (t c : Int) :
    (get_conversation_room t c).data =
      "tenant_".data ++ (intStr t ++ ("_conversation_".data ++ intStr c)) := by
  simp [get_conversation_room, List.asString]

theorem conversation_room_tenant_inj {t1 t2 c : Int}
    (h : get_conversation_room t1 c = get_conversation_room t2 c) : t1 = t2 := by
  have hd := congrArg String.data h
  rw [get_conversation_room_data, get_conversation_room_data] at hd
  have h1 := List.append_cancel_left hd
  have h2 := (List.append_inj' h1 rfl).1
  exact intStr_inj h2

theorem tenant_room_ne_conversation_room (t t' c : Int) :
    get_tenant_room t ≠ get_conversation_room t' c := by
  intro h
  have hd := congrArg String.data h
  rw [get_tenant_room_data, get_conversation_room_data] at hd
  have h1 := List.append_cancel_left hd
  apply underscore_not_mem_intStr t
  rw [h1]
  refine List.mem_append.mpr (Or.inr ?_)
  refine List.mem_append.mpr (Or.inl ?_)
  decide

/-- Auth claims carried by the Socket.IO connection handshake: the handler
reads `auth.get("id")`, `auth.get("tenant_id", 0)` and
`auth.get("isStudent", True)`; each key may be absent. -/
structure AuthData where
  id : Option Int
  tenant_id : Option Int
  isStudent : Option Bool
deriving DecidableEq

/-- One entry of the module-level `connected_clients["/"]` dictionary:
`{"user_id": ..., "user_type": ..., "tenant_id": ..., "rooms": [...]}`. -/
structure ClientInfo where
  user_id : Int
  user_type : String
  tenant_id : Int
  rooms : List String
deriving DecidableEq

/-- Server state: the registry dictionary `connected_clients["/"]` as an
association list keyed by socket id, plus the socket.io room index (the
(sid, room) memberships maintained by `sio.enter_room` / `sio.leave_room`
inside the python-socketio library). -/
structure ServerState where
  clients : List (String × ClientInfo)
  sioRooms : List (String × String)
deriving DecidableEq

/-- Dictionary lookup `connected_clients["/"].get(sid)`. -/
def getClient (cs : List (String × ClientInfo)) (sid : String) : Option ClientInfo :=
  match cs with
  | [] => none
  | (s, i) :: rest => if s = sid then some i else getClient rest sid

/-- Dictionary store `connected_clients["/"][sid] = info` (replaces the
entry when the key is present, appends it otherwise). -/
def setClient (sid : String) (info : ClientInfo) :
    List (String × ClientInfo) → List (String × ClientInfo)
  | [] => [(sid, info)]
  | (s, i) :: rest =>
    if s = sid then (sid, info) :: rest else (s, i) :: setClient sid info rest

/-- Dictionary deletion `del connected_clients["/"][sid]` (dictionary keys
are unique, so removing every pair with that key is the same operation). -/
def delClient (sid : String) (cs : List (String × ClientInfo)) :
    List (String × ClientInfo) :=
  cs.filter (fun p => p.1 ≠ sid)

/-- `sio.enter_room(sid, room)`: the library adds the sid to the room's
member set; adding an existing membership is a no-op. -/
def enterRoom (sid room : String) (rs : List (String × String)) :
    List (String × String) :=
  if (sid, room) ∈ rs then rs else rs ++ [(sid, room)]

/-- `sio.leave_room(sid, room)`: the library removes the sid from the
room's member set. -/
def sioLeaveRoom (sid room : String) (rs : List (String × String)) :
    List (String × String) :=
  rs.erase (sid, room)

/-- Python truthiness of an optional integer (`not x` is true for a missing
value and for `0`). -/
def pyFalsyOptInt : Option Int → Bool
  | none => true
  | some v => v == 0

/-- Python truthiness of an optional string (`if x:` holds for a present,
non-empty string). -/
def pyTruthyOptStr : Option String → Bool
  | none => false
  | some v => v ≠ ""

/-- The `id` claim read by `connect`: `user_data.get("id")`. -/
def authUserId (auth : Option AuthData) : Option Int :=
  (auth.getD ⟨none, none, none⟩).id

/-- The tenant claim read by `connect`: `user_data.get("tenant_id", 0)`. -/
def authTenantId (auth : Option AuthData) : Int :=
  (auth.getD ⟨none, none, none⟩).tenant_id.getD 0

/-- The role string computed by `connect`:
`"student" if user_data.get("isStudent", True) else "instructor"`. -/
def authUserType (auth : Option AuthData) : String :=
  if (auth.getD ⟨none, none, none⟩).isStudent.getD true then "student" else "instructor"

/-- The `connect` handler of `src/socket_server.py` (lines 492-536): validates
the auth claims, rejects (returns `False`) on a falsy user id or a falsy or
non-positive tenant id, otherwise stores the client record, auto-joins the
tenant room and returns `True`. -/
def connect (sid : String) (auth : Option AuthData) (s : ServerState) :
    Bool × ServerState :=
  let user_id := authUserId auth
  let tenant_id := authTenantId auth
  let user_type := authUserType auth
  if pyFalsyOptInt user_id then (false, s)
  else if tenant_id = 0 ∨ tenant_id ≤ 0 then (false, s)
  else
    let tenant_room := get_tenant_room tenant_id
    let info : ClientInfo :=
      { user_id := user_id.getD 0, user_type := user_type,
        tenant_id := tenant_id, rooms := [tenant_room] }
    (true, { clients := setClient sid info s.clients,
             sioRooms := enterRoom sid tenant_room s.sioRooms })

/-- The `disconnect` handler (lines 538-548) composed with the room cleanup
python-socketio itself performs on transport disconnect (the library removes
the sid from every room); the handler then deletes the registry entry if
present. -/
def disconnect (sid : String) (s : ServerState) : ServerState :=
  { clients := delClient sid s.clients,
    sioRooms := s.sioRooms.filter (fun p => p.1 ≠ sid) }

/-- Acknowledgement dictionary returned by `join_conversation`. -/
inductive JoinResult
  | ok (conversation_id : Int) (room : String)
  | err (msg : String)
deriving DecidableEq

/-- The `join_conversation` handler (lines 550-579): requires a registered
sid and a truthy `conversation_id`, then joins the tenant-scoped
conversation room and records it in the client's room list if new. -/
def join_conversation (sid : String) (conversation_id : Option Int)
    (s : ServerState) : JoinResult × ServerState :=
  match getClient s.clients sid with
  | none => (.err "Client not found", s)
  | some info =>
    if pyFalsyOptInt conversation_id then (.err "Missing conversation_id", s)
    else
      let cid := conversation_id.getD 0
      let room_name := get_conversation_room info.tenant_id cid
      let info' :=
        if room_name ∈ info.rooms then info
        else { info with rooms := info.rooms ++ [room_name] }
      (.ok cid room_name,
       { clients := setClient sid info' s.clients,
         sioRooms := enterRoom sid room_name s.sioRooms })

/-- Acknowledgement dictionary returned by `leave_room`. -/
inductive LeaveResult
  | ok (conversation_id : Int)
  | err (msg : String)
deriving DecidableEq

/-- The `leave_room` handler (lines 581-616): requires a registered sid and
a truthy `conversation_id`, refuses when the resolved conversation room
equals the tenant room, otherwise leaves the room and drops it from the
client's room list if present. -/
def leave_room (sid : String) (conversation_id : Option Int)
    (s : ServerState) : LeaveResult × ServerState :=
  match getClient s.clients sid with
  | none => (.err "Client not found", s)
  | some info =>
    if pyFalsyOptInt conversation_id then (.err "Missing conversation_id", s)
    else
      let cid := conversation_id.getD 0
      let room_name := get_conversation_room info.tenant_id cid
      let tenant_room := get_tenant_room info.tenant_id
      if room_name = tenant_room then (.err "Cannot leave tenant room", s)
      else
        let info' :=
          if room_name ∈ info.rooms then
            { info with rooms := info.rooms.erase room_name }
          else info
        (.ok cid,
         { clients := setClient sid info' s.clients,
           sioRooms := sioLeaveRoom sid room_name s.sioRooms })

/-- Members of a room in the socket.io room index. -/
def roomMembers (s : ServerState) (room : String) : List String :=
  (s.sioRooms.filter (fun p => p.2 = room)).map (fun p => p.1)

/-- Recipients of an awaited `sio.emit(..., room=room, skip_sid=skip)`:
every member of the room except the skipped sid. -/
def emitRecipients (s : ServerState) (room : String) (skip : Option String) :
    List String :=
  (roomMembers s room).filter (fun m => skip ≠ some m)

/-- Acknowledgement dictionary returned by the relay handlers
(`{"success": True}` or `{"error": ...}`). -/
inductive RelayResult
  | ok
  | err (msg : String)
deriving DecidableEq

/-- The `typing_status` handler `on_typing_status` (lines 618-646): requires
a registered sid and a truthy `conversation_id`, resolves the conversation
room — and then builds the `sio.emit(..., room=room, skip_sid=sid)`
coroutine WITHOUT awaiting it (line 641 has no `await`), so the coroutine is
dropped and nothing is delivered; the middle component of the result is the
list of sids actually sent to. -/
def on_typing_status (sid : String) (conversation_id : Option Int)
    (s : ServerState) : RelayResult × List String × ServerState :=
  match getClient s.clients sid with
  | none => (.err "Client not found", [], s)
  | some _info =>
    if pyFalsyOptInt conversation_id then (.err "Missing conversation_id", [], s)
    else
      (.ok, [], s)

/-- Request body of the REST `/emit` endpoint (`EmitEventData`); the payload
dictionary is modelled as string key/value pairs, the routing never
inspects it. -/
structure EmitEventData where
  event : String
  data : List (String × String)
  tenant_id : Int
  room : Option String
deriving DecidableEq

/-- The `/emit` endpoint `emit_event` (lines 382-411): when the `room` field
is truthy the event goes to exactly that room (no check against the tenant),
otherwise to the tenant room of `tenant_id`.  Returns the targeted room and
the recipients of the awaited emit. -/
def emit_event (d : EmitEventData) (s : ServerState) : String × List String :=
  let tenant_room := get_tenant_room d.tenant_id
  if pyTruthyOptStr d.room then
    let r := d.room.getD ""
    (r, emitRecipients s r none)
  else
    (tenant_room, emitRecipients s tenant_room none)

theorem getClient_setClient (sid sid' : String) (info : ClientInfo) (cs : List (String × ClientInfo)) :
    getClient (setClient sid info cs) sid' =
      if sid' = sid then some info else getClient cs sid' := by
  induction cs with
  | nil =>
    by_cases h : sid' = sid
    · simp [setClient, getClient, h]
    · have h2 : ¬(sid = sid') := fun hc => h hc.symm
      simp [setClient, getClient, h, h2]
  | cons p rest ih =>
    obtain ⟨s, i⟩ := p
    by_cases hs : s = sid
    · subst hs
      by_cases h' : sid' = s
      · simp [setClient, getClient, h']
      · have h2 : ¬(s = sid') := fun hc => h' hc.symm
        simp [setClient, getClient, h', h2]
    · by_cases h' : s = sid'
      · subst h'
        simp [setClient, getClient, hs]
      · simp [setClient, getClient, hs, h', ih]

theorem getClient_none_keys {cs : List (String × ClientInfo)} {sid : String}
    (h : getClient cs sid = none) : ∀ p ∈ cs, p.1 ≠ sid := by
  induction cs with
  | nil => intro p hp; cases hp
  | cons q rest ih =>
    obtain ⟨s, i⟩ := q
    by_cases hs : s = sid
    · simp [getClient, hs] at h
    · intro p hp
      rcases List.mem_cons.mp hp with hp | hp
      · subst hp; exact hs
      · exact ih (by simpa [getClient, hs] using h) p hp

theorem getClient_delClient_self (sid : String) (cs : List (String × ClientInfo)) :
    getClient (delClient sid cs) sid = none := by
  induction cs with
  | nil => simp [delClient, getClient]
  | cons p rest ih =>
    obtain ⟨s, i⟩ := p
    by_cases hs : s = sid
    · simpa [delClient, hs] using ih
    · simpa [delClient, getClient, hs] using ih

theorem getClient_delClient_ne {sid sid' : String} (h : sid' ≠ sid)
    (cs : List (String × ClientInfo)) :
    getClient (delClient sid cs) sid' = getClient cs sid' := by
  induction cs with
  | nil => simp [delClient]
  | cons p rest ih =>
    obtain ⟨s, i⟩ := p
    by_cases hs : s = sid
    · subst hs
      have : ¬(s = sid') := fun hc => h hc.symm
      simpa [delClient, getClient, this] using ih
    · by_cases h' : s = sid'
      · subst h'
        simp [delClient, getClient, hs]
      · simpa [delClient, getClient, hs, h'] using ih

theorem delClient_of_getClient_none {cs : List (String × ClientInfo)} {sid : String}
    (h : getClient cs sid = none) : delClient sid cs = cs := by
  have hk := getClient_none_keys h
  unfold delClient
  rw [List.filter_eq_self]
  intro p hp
  simpa using hk p hp

theorem setClient_setClient (sid : String) (i1 i2 : ClientInfo)
    (cs : List (String × ClientInfo)) :
    setClient sid i2 (setClient sid i1 cs) = setClient sid i2 cs := by
  induction cs with
  | nil => simp [setClient]
  | cons p rest ih =>
    obtain ⟨s, i⟩ := p
    by_cases hs : s = sid
    · simp [setClient, hs]
    · simp [setClient, hs, ih]

theorem setClient_of_getClient {cs : List (String × ClientInfo)} {sid : String}
    {info : ClientInfo} (h : getClient cs sid = some info) :
    setClient sid info cs = cs := by
  induction cs with
  | nil => simp [getClient] at h
  | cons p rest ih =>
    obtain ⟨s, i⟩ := p
    by_cases hs : s = sid
    · subst hs
      simp [getClient] at h
      simp [setClient, h]
    · simp [getClient, hs] at h
      simp [setClient, hs, ih h]

theorem filter_idem {α : Type} (p : α → Bool) (l : List α) :
    (l.filter p).filter p = l.filter p := by
  induction l with
  | nil => rfl
  | cons a t ih =>
    by_cases h : p a
    · simp [List.filter, h, ih]
    · simp only [List.filter]
      rw [Bool.not_eq_true] at h
      simp [h, ih]

/-- Every room name stored in a client record encodes the record's own
tenant: it is the tenant-wide room of that tenant or a conversation room of
that tenant. -/
def roomsEncodeTenant (info : ClientInfo) : Prop :=
  ∀ room ∈ info.rooms,
    room = get_tenant_room info.tenant_id ∨
      ∃ c : Int, room = get_conversation_room info.tenant_id c

/-- The tenant-isolation invariant over the whole registry. -/
def TenantInvariant (s : ServerState) : Prop :=
  ∀ sid info, getClient s.clients sid = some info → roomsEncodeTenant info

/-- C1: for every pair of distinct tenant identifiers and every conversation
identifier, `get_conversation_room` yields different room names: conversation
rooms never collide across tenants. -/
theorem claim_C1_conversation_rooms_never_collide (t1 t2 c : Int) (h : t1 ≠ t2) :
    get_conversation_room t1 c ≠ get_conversation_room t2 c :=
  fun he => h (conversation_room_tenant_inj he)

theorem claim_C1_witness :
    (1 : Int) ≠ 2 ∧ get_conversation_room 1 5 ≠ get_conversation_room 2 5 :=
  ⟨by decide, claim_C1_conversation_rooms_never_collide 1 2 5 (by decide)⟩

/-- C3: for every tenant identifier and every tenant/conversation pair, the
tenant-wide room name never equals a conversation-room name: the two naming
functions have disjoint ranges, so a conversation id can never alias a
tenant-wide room. -/
theorem claim_C3_tenant_room_never_aliases_conversation_room (t t' c : Int) :
    get_tenant_room t ≠ get_conversation_room t' c :=
  tenant_room_ne_conversation_room t t' c

theorem connect_eq (sid : String) (auth : Option AuthData) (s : ServerState) :
    connect sid auth s =
      if pyFalsyOptInt (authUserId auth) ∨ authTenantId auth ≤ 0 then (false, s)
      else
        (true,
         { clients := setClient sid
             { user_id := (authUserId auth).getD 0,
               user_type := authUserType auth,
               tenant_id := authTenantId auth,
               rooms := [get_tenant_room (authTenantId auth)] } s.clients,
           sioRooms := enterRoom sid (get_tenant_room (authTenantId auth)) s.sioRooms }) := by
  unfold connect
  by_cases h1 : pyFalsyOptInt (authUserId auth)
  · simp [h1]
  · by_cases h2 : authTenantId auth ≤ 0
    · have h3 : authTenantId auth = 0 ∨ authTenantId auth ≤ 0 := Or.inr h2
      simp [h1, h2, h3]
    · have h3 : ¬(authTenantId auth = 0 ∨ authTenantId auth ≤ 0) := by omega
      simp [h1, h2, h3]
      omega

theorem connect_preserves_TenantInvariant {s : ServerState} (hs : TenantInvariant s)
    (sid : String) (auth : Option AuthData) :
    TenantInvariant (connect sid auth s).2 := by
  rw [connect_eq]
  by_cases h : pyFalsyOptInt (authUserId auth) ∨ authTenantId auth ≤ 0
  · simpa [h] using hs
  · simp only [h, if_false]
    intro sid' info' hget
    rw [getClient_setClient] at hget
    by_cases hsid : sid' = sid
    · rw [if_pos hsid] at hget
      cases hget
      intro room hr
      simp only [List.mem_singleton] at hr
      subst hr
      left
      rfl
    · rw [if_neg hsid] at hget
      exact hs sid' info' hget

theorem join_preserves_TenantInvariant {s : ServerState} (hs : TenantInvariant s)
    (sid : String) (cid : Option Int) :
    TenantInvariant (join_conversation sid cid s).2 := by
  unfold join_conversation
  rcases hget : getClient s.clients sid with _ | info
  · simpa using hs
  · by_cases hcid : pyFalsyOptInt cid
    · simpa [hcid] using hs
    · simp only [hcid, Bool.false_eq_true, if_false]
      intro sid' info' hget'
      rw [getClient_setClient] at hget'
      by_cases hsid : sid' = sid
      · rw [if_pos hsid] at hget'
        have hinv := hs sid info hget
        by_cases hmem : get_conversation_room info.tenant_id (cid.getD 0) ∈ info.rooms
        · rw [if_pos hmem] at hget'
          cases hget'
          exact hinv
        · rw [if_neg hmem] at hget'
          cases hget'
          intro room hr
          rcases List.mem_append.mp hr with hr | hr
          · exact hinv room hr
          · simp only [List.mem_singleton] at hr
            subst hr
            right
            exact ⟨cid.getD 0, rfl⟩
      · rw [if_neg hsid] at hget'
        exact hs sid' info' hget'

theorem leave_preserves_TenantInvariant {s : ServerState} (hs : TenantInvariant s)
    (sid : String) (cid : Option Int) :
    TenantInvariant (leave_room sid cid s).2 := by
  unfold leave_room
  rcases hget : getClient s.clients sid with _ | info
  · simpa using hs
  · by_cases hcid : pyFalsyOptInt cid
    · simpa [hcid] using hs
    · simp only [hcid, Bool.false_eq_true, if_false]
      by_cases hteq : get_conversation_room info.tenant_id (cid.getD 0) =
          get_tenant_room info.tenant_id
      · simpa [hteq] using hs
      · simp only [hteq, if_false]
        intro sid' info' hget'
        rw [getClient_setClient] at hget'
        by_cases hsid : sid' = sid
        · rw [if_pos hsid] at hget'
          have hinv := hs sid info hget
          by_cases hmem : get_conversation_room info.tenant_id (cid.getD 0) ∈ info.rooms
          · rw [if_pos hmem] at hget'
            cases hget'
            intro room hr
            exact hinv room (List.mem_of_mem_erase hr)
          · rw [if_neg hmem] at hget'
            cases hget'
            exact hinv
        · rw [if_neg hsid] at hget'
          exact hs sid' info' hget'

theorem disconnect_preserves_TenantInvariant {s : ServerState} (hs : TenantInvariant s)
    (sid : String) : TenantInvariant (disconnect sid s) := by
  intro sid' info' hget'
  by_cases hsid : sid' = sid
  · subst hsid
    rw [show (disconnect sid' s).clients = delClient sid' s.clients from rfl,
      getClient_delClient_self] at hget'
    cases hget'
  · rw [show (disconnect sid s).clients = delClient sid s.clients from rfl,
      getClient_delClient_ne hsid] at hget'
    exact hs sid' info' hget'

/-- C2: every room name stored in a registered connection's room list encodes
the connection's own tenant (it is the tenant-wide room of that tenant or a
conversation room of that tenant), and this invariant is preserved by
`connect`, `join_conversation`, `leave_room` and `disconnect`. -/
theorem claim_C2_rooms_encode_own_tenant_invariant (s : ServerState)
    (hs : TenantInvariant s) :
    (∀ sid auth, TenantInvariant (connect sid auth s).2) ∧
    (∀ sid cid, TenantInvariant (join_conversation sid cid s).2) ∧
    (∀ sid cid, TenantInvariant (leave_room sid cid s).2) ∧
    (∀ sid, TenantInvariant (disconnect sid s)) :=
  ⟨fun sid auth => connect_preserves_TenantInvariant hs sid auth,
   fun sid cid => join_preserves_TenantInvariant hs sid cid,
   fun sid cid => leave_preserves_TenantInvariant hs sid cid,
   fun sid => disconnect_preserves_TenantInvariant hs sid⟩

theorem claim_C2_witness :
    TenantInvariant (connect "sidA" (some ⟨some 10, some 1, none⟩) ⟨[], []⟩).2 :=
  (claim_C2_rooms_encode_own_tenant_invariant ⟨[], []⟩
    (fun sid info h => by simp [getClient] at h)).1 "sidA" (some ⟨some 10, some 1, none⟩)

theorem mem_enterRoom_self (sid room : String) (rs : List (String × String)) :
    (sid, room) ∈ enterRoom sid room rs := by
  unfold enterRoom
  by_cases h : (sid, room) ∈ rs
  · simp [h]
  · simp [h]

/-- The exact admission condition of the `connect` handler: a falsy user id
claim (absent or 0) or a falsy or non-positive tenant id claim. -/
def connectRejects (auth : Option AuthData) : Prop :=
  pyFalsyOptInt (authUserId auth) = true ∨ authTenantId auth ≤ 0

instance (auth : Option AuthData) : Decidable (connectRejects auth) := by
  unfold connectRejects
  infer_instance

theorem claim_C4_counterexample :
    authUserId (some ⟨some 0, some 5, none⟩) ≠ none ∧
    authTenantId (some ⟨some 0, some 5, none⟩) = 5 ∧
    connect "sidA" (some ⟨some 0, some 5, none⟩) ⟨[], []⟩ = (false, ⟨[], []⟩) := by
  decide

/-- C4 (amended): connect rejects exactly when the auth claims carry a falsy
user id (absent or equal to 0) or a missing or non-positive tenant id; on
rejection the state is unchanged and no record is created, on any other auth
claims it succeeds, stores the client record and auto-joins the tenant-wide
room. -/
theorem claim_C4_admission_check (sid : String) (auth : Option AuthData)
    (s : ServerState) :
    (connectRejects auth → connect sid auth s = (false, s)) ∧
    (¬connectRejects auth →
      (connect sid auth s).1 = true ∧
      getClient (connect sid auth s).2.clients sid =
        some { user_id := (authUserId auth).getD 0,
               user_type := authUserType auth,
               tenant_id := authTenantId auth,
               rooms := [get_tenant_room (authTenantId auth)] } ∧
      (sid, get_tenant_room (authTenantId auth)) ∈ (connect sid auth s).2.sioRooms) := by
  constructor
  · intro h
    unfold connectRejects at h
    rw [connect_eq, if_pos h]
  · intro h
    unfold connectRejects at h
    rw [connect_eq, if_neg h]
    refine ⟨rfl, ?_, ?_⟩
    · rw [getClient_setClient, if_pos rfl]
    · exact mem_enterRoom_self _ _ _

theorem claim_C4_witness :
    connect "sidA" (some ⟨some 7, none, none⟩) ⟨[], []⟩ = (false, ⟨[], []⟩) ∧
    (connect "sidB" (some ⟨some 7, some 3, none⟩) ⟨[], []⟩).1 = true :=
  ⟨(claim_C4_admission_check "sidA" (some ⟨some 7, none, none⟩) ⟨[], []⟩).1 (by decide),
   ((claim_C4_admission_check "sidB" (some ⟨some 7, some 3, none⟩) ⟨[], []⟩).2 (by decide)).1⟩

/-- C10: a connect attempt whose auth claims carry a user id equal to 0 is
rejected and creates no connection record (the whole state is unchanged),
even though a user id value is present: the admission test `if not user_id:`
treats every falsy user id as missing. -/
theorem claim_C10_user_id_zero_rejected (sid : String) (auth : AuthData)
    (s : ServerState) (h : auth.id = some 0) :
    connect sid (some auth) s = (false, s) := by
  have hf : pyFalsyOptInt (authUserId (some auth)) = true := by
    simp [authUserId, h, pyFalsyOptInt]
  rw [connect_eq, if_pos (Or.inl hf)]

theorem claim_C10_witness :
    connect "sidZ" (some ⟨some 0, some 4, none⟩) ⟨[], []⟩ = (false, ⟨[], []⟩) :=
  claim_C10_user_id_zero_rejected "sidZ" ⟨some 0, some 4, none⟩ ⟨[], []⟩ rfl

/-- A registry state holding one connection, used to exercise duplicate
registration: sid "sidA" is present, registered to tenant 1 as user 10. -/
def dupState : ServerState :=
  ⟨[("sidA", ⟨10, "student", 1, ["tenant_1"]⟩)], [("sidA", "tenant_1")]⟩

theorem claim_C8_counterexample :
    getClient dupState.clients "sidA" = some ⟨10, "student", 1, ["tenant_1"]⟩ ∧
    (connect "sidA" (some ⟨some 20, some 2, none⟩) dupState).1 = true ∧
    getClient (connect "sidA" (some ⟨some 20, some 2, none⟩) dupState).2.clients "sidA" ≠
      some ⟨10, "student", 1, ["tenant_1"]⟩ := by
  decide

/-- C8 (amended): a connect on a connection identifier that is already
present in the registry does not fail: with admissible auth claims it
returns `True` and silently overwrites the existing record with one built
from the new claims (there is no `DuplicateConnection` fault in the code). -/
theorem claim_C8_duplicate_connect_overwrites (sid : String) (auth : Option AuthData)
    (s : ServerState) (info : ClientInfo)
    (_hdup : getClient s.clients sid = some info)
    (hok : ¬connectRejects auth) :
    (connect sid auth s).1 = true ∧
    getClient (connect sid auth s).2.clients sid =
      some { user_id := (authUserId auth).getD 0,
             user_type := authUserType auth,
             tenant_id := authTenantId auth,
             rooms := [get_tenant_room (authTenantId auth)] } := by
  unfold connectRejects at hok
  rw [connect_eq, if_neg hok]
  exact ⟨rfl, by rw [getClient_setClient, if_pos rfl]⟩

theorem claim_C8_witness :
    (connect "sidA" (some ⟨some 20, some 2, none⟩) dupState).1 = true ∧
    getClient (connect "sidA" (some ⟨some 20, some 2, none⟩) dupState).2.clients "sidA" =
      some { user_id := 20, user_type := "student", tenant_id := 2,
             rooms := [get_tenant_room 2] } :=
  claim_C8_duplicate_connect_overwrites "sidA" (some ⟨some 20, some 2, none⟩)
    dupState ⟨10, "student", 1, ["tenant_1"]⟩ (by decide) (by decide)

theorem filter_ne_sid_eq_self {sid : String} {rs : List (String × String)}
    (h : ∀ r, (sid, r) ∉ rs) : rs.filter (fun p => p.1 ≠ sid) = rs := by
  rw [List.filter_eq_self]
  intro p hp
  obtain ⟨a, b⟩ := p
  simp only [ne_eq, decide_not, Bool.not_eq_eq_eq_not, Bool.not_true, decide_eq_false_iff_not]
  intro hab
  subst hab
  exact h b hp

/-- C7: `disconnect` always succeeds and is idempotent — on an absent
connection (no registry record, no room membership) it is a no-op rather
than an error; after a disconnect the connection is gone from the registry
and from every room's membership, and a subsequent `join_conversation` on
that sid fails with the unknown-connection error `"Client not found"`. -/
theorem claim_C7_disconnect_semantics :
    (∀ sid s, getClient s.clients sid = none → (∀ r, (sid, r) ∉ s.sioRooms) →
      disconnect sid s = s) ∧
    (∀ sid s, disconnect sid (disconnect sid s) = disconnect sid s) ∧
    (∀ sid s, getClient (disconnect sid s).clients sid = none ∧
      ∀ r, (sid, r) ∉ (disconnect sid s).sioRooms) ∧
    (∀ sid cid s, (join_conversation sid cid (disconnect sid s)).1 =
      JoinResult.err "Client not found") := by
  refine ⟨?_, ?_, ?_, ?_⟩
  · intro sid s h1 h2
    unfold disconnect
    rw [delClient_of_getClient_none h1, filter_ne_sid_eq_self h2]
  · intro sid s
    unfold disconnect delClient
    simp only [filter_idem]
  · intro sid s
    refine ⟨getClient_delClient_self sid s.clients, ?_⟩
    intro r hr
    unfold disconnect at hr
    simp only [List.mem_filter] at hr
    simp at hr
  · intro sid cid s
    unfold join_conversation
    rw [show (disconnect sid s).clients = delClient sid s.clients from rfl,
      getClient_delClient_self]

theorem claim_C7_witness :
    disconnect "sidA" ⟨[], []⟩ = ⟨[], []⟩ ∧
    (join_conversation "sidA" (some 5) (disconnect "sidA" ⟨[], []⟩)).1 =
      JoinResult.err "Client not found" :=
  ⟨claim_C7_disconnect_semantics.1 "sidA" ⟨[], []⟩ rfl (fun r hr => by cases hr),
   claim_C7_disconnect_semantics.2.2.2 "sidA" (some 5) ⟨[], []⟩⟩

theorem erase_append_singleton {α : Type} [BEq α] [LawfulBEq α] {a : α} {l : List α}
    (h : a ∉ l) : (l ++ [a]).erase a = l := by
  induction l with
  | nil => simp
  | cons x t ih =>
    have hx : a ≠ x := fun hc => h (hc ▸ List.mem_cons_self x t)
    have ht : a ∉ t := fun hc => h (List.mem_cons_of_mem x hc)
    rw [List.cons_append, List.erase_cons]
    have hxa : (x == a) = false := by
      simp only [beq_eq_false_iff_ne, ne_eq]
      exact fun hc => hx hc.symm
    simp [hxa, ih ht]

theorem join_conversation_eq {s : ServerState} {sid : String} {info : ClientInfo}
    {cid : Int} (hget : getClient s.clients sid = some info) (hcid : cid ≠ 0) :
    join_conversation sid (some cid) s =
      (.ok cid (get_conversation_room info.tenant_id cid),
       { clients := setClient sid
           (if get_conversation_room info.tenant_id cid ∈ info.rooms then info
            else { info with
                   rooms := info.rooms ++ [get_conversation_room info.tenant_id cid] })
           s.clients,
         sioRooms := enterRoom sid (get_conversation_room info.tenant_id cid) s.sioRooms }) := by
  unfold join_conversation
  rw [hget]
  have hfal : pyFalsyOptInt (some cid) = false := by simp [pyFalsyOptInt, hcid]
  rw [hfal]
  simp

theorem leave_room_eq {s : ServerState} {sid : String} {info : ClientInfo}
    {cid : Int} (hget : getClient s.clients sid = some info) (hcid : cid ≠ 0) :
    leave_room sid (some cid) s =
      (.ok cid,
       { clients := setClient sid
           (if get_conversation_room info.tenant_id cid ∈ info.rooms then
              { info with
                rooms := info.rooms.erase (get_conversation_room info.tenant_id cid) }
            else info)
           s.clients,
         sioRooms := s.sioRooms.erase (sid, get_conversation_room info.tenant_id cid) }) := by
  unfold leave_room
  rw [hget]
  have hfal : pyFalsyOptInt (some cid) = false := by simp [pyFalsyOptInt, hcid]
  rw [hfal]
  have hne : get_conversation_room info.tenant_id cid ≠ get_tenant_room info.tenant_id :=
    fun h => tenant_room_ne_conversation_room info.tenant_id info.tenant_id cid h.symm
  simp [hne, sioLeaveRoom]

/-- A state in which connection "sidA" of tenant 1 is already a member of
the conversation-7 room; exercises the join/leave round trip from a state
with prior membership. -/
def preJoinedState : ServerState :=
  ⟨[("sidA", ⟨10, "student", 1, ["tenant_1", "tenant_1_conversation_7"]⟩)],
   [("sidA", "tenant_1"), ("sidA", "tenant_1_conversation_7")]⟩

theorem claim_C6_counterexample :
    ("sidA", "tenant_1_conversation_7") ∈ preJoinedState.sioRooms ∧
    (leave_room "sidA" (some 7) (join_conversation "sidA" (some 7) preJoinedState).2).2 ≠
      preJoinedState := by
  decide

/-- C6 (amended): joining then immediately leaving the same conversation
restores the server state exactly, provided the connection was not already a
member of that conversation room (if it was, the leave also removes the
pre-existing membership, so the round trip is not neutral); and `leave_room`
can never detach a connection from its tenant-wide room: the tenant-room
membership in the room index survives every `leave_room`, and a surviving
registry record keeps its tenant and its tenant-room entry (the handler
rejects a leave whose resolved room is the tenant room, and a conversation
room can never alias it). -/
theorem claim_C6_join_leave_round_trip :
    (∀ sid (cid : Int) info s,
      getClient s.clients sid = some info →
      cid ≠ 0 →
      get_conversation_room info.tenant_id cid ∉ info.rooms →
      (sid, get_conversation_room info.tenant_id cid) ∉ s.sioRooms →
      (leave_room sid (some cid) (join_conversation sid (some cid) s).2).2 = s) ∧
    (∀ sid cid s sid2 (t : Int), (sid2, get_tenant_room t) ∈ s.sioRooms →
      (sid2, get_tenant_room t) ∈ (leave_room sid cid s).2.sioRooms) ∧
    (∀ sid cid s info, getClient s.clients sid = some info →
      ∃ info2, getClient (leave_room sid cid s).2.clients sid = some info2 ∧
        info2.tenant_id = info.tenant_id ∧
        (get_tenant_room info.tenant_id ∈ info.rooms →
          get_tenant_room info.tenant_id ∈ info2.rooms)) := by
  refine ⟨?_, ?_, ?_⟩
  · intro sid cid info s hget hcid hmem hsio
    obtain ⟨uid, utype, tid, rms⟩ := info
    simp only at hget hmem hsio
    have hstate1 : (join_conversation sid (some cid) s).2 =
        { clients := setClient sid
            ⟨uid, utype, tid, rms ++ [get_conversation_room tid cid]⟩ s.clients,
          sioRooms := s.sioRooms ++ [(sid, get_conversation_room tid cid)] } := by
      rw [join_conversation_eq hget hcid]
      simp only [if_neg hmem]
      unfold enterRoom
      rw [if_neg hsio]
    rw [hstate1]
    have hget2 : getClient (setClient sid
        ⟨uid, utype, tid, rms ++ [get_conversation_room tid cid]⟩ s.clients) sid =
        some ⟨uid, utype, tid, rms ++ [get_conversation_room tid cid]⟩ := by
      rw [getClient_setClient, if_pos rfl]
    rw [leave_room_eq hget2 hcid]
    simp only [List.mem_append, List.mem_singleton, or_true, if_pos]
    rw [erase_append_singleton hmem, erase_append_singleton hsio,
      setClient_setClient, setClient_of_getClient hget]
  · intro sid cid s sid2 t hmem
    unfold leave_room
    rcases hget : getClient s.clients sid with _ | info
    · exact hmem
    · by_cases hfal : pyFalsyOptInt cid
      · simp only [hfal, if_true]
        exact hmem
      · simp only [hfal, Bool.false_eq_true, if_false]
        by_cases heq : get_conversation_room info.tenant_id (cid.getD 0) =
            get_tenant_room info.tenant_id
        · simp only [heq, if_pos rfl]
          exact hmem
        · simp only [heq, if_false, sioLeaveRoom]
          exact (List.mem_erase_of_ne (fun hc =>
            tenant_room_ne_conversation_room t info.tenant_id (cid.getD 0)
              (congrArg Prod.snd hc))).mpr hmem
  · intro sid cid s info hget
    unfold leave_room
    rw [hget]
    by_cases hfal : pyFalsyOptInt cid
    · simp only [hfal, if_true]
      exact ⟨info, hget, rfl, fun h => h⟩
    · simp only [hfal, Bool.false_eq_true, if_false]
      by_cases heq : get_conversation_room info.tenant_id (cid.getD 0) =
          get_tenant_room info.tenant_id
      · simp only [heq, if_pos rfl]
        exact ⟨info, hget, rfl, fun h => h⟩
      · simp only [heq, if_false]
        by_cases hmem : get_conversation_room info.tenant_id (cid.getD 0) ∈ info.rooms
        · refine ⟨{ info with
              rooms := info.rooms.erase (get_conversation_room info.tenant_id (cid.getD 0)) },
            ?_, rfl, ?_⟩
          · rw [if_pos hmem, getClient_setClient, if_pos rfl]
          · intro ht
            exact (List.mem_erase_of_ne (fun hc =>
              tenant_room_ne_conversation_room info.tenant_id info.tenant_id (cid.getD 0)
                hc)).mpr ht
        · refine ⟨info, ?_, rfl, fun h => h⟩
          rw [if_neg hmem, getClient_setClient, if_pos rfl]

theorem claim_C6_witness :
    (leave_room "sidA" (some 7) (join_conversation "sidA" (some 7)
      (⟨[("sidA", ⟨10, "student", 1, ["tenant_1"]⟩)], [("sidA", "tenant_1")]⟩ :
        ServerState)).2).2 =
      ⟨[("sidA", ⟨10, "student", 1, ["tenant_1"]⟩)], [("sidA", "tenant_1")]⟩ :=
  claim_C6_join_leave_round_trip.1 "sidA" 7 ⟨10, "student", 1, ["tenant_1"]⟩
    ⟨[("sidA", ⟨10, "student", 1, ["tenant_1"]⟩)], [("sidA", "tenant_1")]⟩
    (by decide) (by decide) (by decide) (by decide)

/-- The scenario of the claim: clients "sidA" and "sidB" both connect to
tenant 1 and both join conversation 7, built by running the embedded
handlers from the empty state. -/
def typingScenario : ServerState :=
  (join_conversation "sidB" (some 7)
    (join_conversation "sidA" (some 7)
      (connect "sidB" (some ⟨some 20, some 1, none⟩)
        (connect "sidA" (some ⟨some 10, some 1, none⟩) ⟨[], []⟩).2).2).2).2

/-- C5 (code bug): in a conversation room with N = 2 live members, the
client-originated typing relay acknowledges success but delivers the event
to nobody — `on_typing_status` never awaits the `sio.emit(...)` coroutine it
creates (line 641 of `src/socket_server.py` lacks `await`, unlike the REST
handlers), so the delivered set is empty instead of the N−1 = 1 other
member (`emitRecipients` shows what the awaited emit would have
delivered), and the acknowledgement carries no delivered count. -/
theorem claim_C5_typing_relay_delivers_nothing :
    roomMembers typingScenario (get_conversation_room 1 7) = ["sidA", "sidB"] ∧
    (on_typing_status "sidA" (some 7) typingScenario).1 = RelayResult.ok ∧
    (on_typing_status "sidA" (some 7) typingScenario).2.1 = [] ∧
    emitRecipients typingScenario (get_conversation_room 1 7) (some "sidA") = ["sidB"] := by
  decide

/-- C9: for the generic `/emit` endpoint, a non-empty room override fully
determines the delivery target: the event goes to exactly the named room,
and the `tenant_id` field of the request has no influence — two requests
differing only in tenant id target the same room, with no check that the
overridden room name encodes the given tenant. -/
theorem claim_C9_emit_room_override_ignores_tenant (e : String)
    (payload : List (String × String)) (t1 t2 : Int) (r : String) (s : ServerState)
    (hr : r ≠ "") :
    (emit_event ⟨e, payload, t1, some r⟩ s).1 = r ∧
    emit_event ⟨e, payload, t1, some r⟩ s = emit_event ⟨e, payload, t2, some r⟩ s := by
  have ht : pyTruthyOptStr (some r) = true := by simp [pyTruthyOptStr, hr]
  unfold emit_event
  simp [ht]

theorem claim_C9_witness :
    ("roomX" : String) ≠ "" ∧
    (emit_event ⟨"ev", [], 1, some "roomX"⟩ ⟨[], []⟩).1 = "roomX" ∧
    emit_event ⟨"ev", [], 1, some "roomX"⟩ ⟨[], []⟩ =
      emit_event ⟨"ev", [], 2, some "roomX"⟩ ⟨[], []⟩ :=
  ⟨by decide,
   (claim_C9_emit_room_override_ignores_tenant "ev" [] 1 2 "roomX" ⟨[], []⟩ (by decide)).1,
   (claim_C9_emit_room_override_ignores_tenant "ev" [] 1 2 "roomX" ⟨[], []⟩ (by decide)).2⟩
